import Mathlib

/-!
Verification of the borrowing-transaction lifecycle of a small
library-management web application (books / members / borrowing records).

The repository ships two interchangeable backends for the same REST routes:
a sqlite one (`src/server/routes/*.js`, first half of each file) and a
mongoose one (second half, together with `src/server/models/*.js`).  The
embedding below models the sqlite route handlers as pure functions on an
explicit store state, and separately models the mongoose schema hooks
(`pre('save')` middleware, `calculateFine`, the `available_copies` clamp)
where they differ from the sqlite behaviour.

Timestamps are integers (milliseconds since the epoch, as in JavaScript
`Date.getTime()`); `moment(a).diff(b, 'days')` truncates the millisecond
difference toward zero, which is `Int.tdiv` by `msPerDay`.  Monetary
amounts are rationals.  HTTP outcomes are modelled by `ApiError`:
`validation` is an express-validator 400 (malformed input, nothing read or
written), `notFound` is a 404, and `conflict` is a business-rule 400
(the spec's `Conflict` kind).
-/

/-- Milliseconds per day, the unit used by `moment(...).diff(..., 'days')`. -/
def msPerDay : Int := 86400000

/-- Number of whole days from `b` to `a`, truncated toward zero: the value of
`moment(a).diff(moment(b), 'days')` for millisecond timestamps. -/
def momentDiffDays (a b : Int) : Int := (a - b).tdiv msPerDay

/-- The value of the JavaScript expression `x || d` for an optional numeric
field `x`: `undefined`/`null` and `0` are falsy and give the default. -/
def jsNumOr (x : Option Int) (d : Int) : Int :=
  match x with
  | none => d
  | some v => if v = 0 then d else v

/-- `membership_status` column / schema enum: 'active' | 'inactive' | 'suspended'. -/
inductive MembershipStatus where
  | active
  | inactive
  | suspended
deriving DecidableEq

/-- Status values of a borrowing transaction.  The sqlite code writes only
'borrowed' and 'returned'; the mongoose schema enum additionally declares
'overdue' (`src/server/models/BorrowingTransaction.js`, status enum). -/
inductive LoanStatus where
  | borrowed
  | returned
  | overdue
deriving DecidableEq

/-- Error outcomes of a route handler.  `validation` models an
express-validator failure (HTTP 400 with an `errors` array, emitted before
the store is touched); `notFound` models HTTP 404; `conflict` models an
HTTP 400 carrying a business-rule message (the spec's `Conflict` kind). -/
inductive ApiError where
  | validation (msg : String)
  | notFound (msg : String)
  | conflict (msg : String)
deriving DecidableEq

/-- A row of the `books` table (id kept outside, as the association key). -/
structure Book where
  title : String
  author : String
  isbn : Option String
  genre : Option String
  publication_year : Option Int
  total_copies : Int
  available_copies : Int
  description : Option String
  cover_image : Option String
deriving DecidableEq

/-- A row of the `members` table. -/
structure Member where
  name : String
  email : String
  phone : Option String
  address : Option String
  membership_status : MembershipStatus
  max_books : Int
deriving DecidableEq

/-- A row of the `borrowing_transactions` table. -/
structure Transaction where
  book_id : Nat
  member_id : Nat
  borrow_date : Int
  due_date : Int
  return_date : Option Int
  status : LoanStatus
  fine_amount : ℚ
  notes : Option String
deriving DecidableEq

/-- The persistent store: the three tables as association lists keyed by the
integer primary key, together with the AUTOINCREMENT counters for the two
tables the modelled routes insert into. -/
structure LibraryState where
  books : List (Nat × Book)
  members : List (Nat × Member)
  transactions : List (Nat × Transaction)
  nextTransactionId : Nat
  nextMemberId : Nat
deriving DecidableEq

/-- `SELECT * FROM t WHERE id = ?`: first row with the given key. -/
def findById {α : Type} (l : List (Nat × α)) (id : Nat) : Option α :=
  match l with
  | [] => none
  | (k, v) :: rest => if k = id then some v else findById rest id

/-- `UPDATE t SET ... WHERE id = ?`: rewrite the first row with the given key. -/
def updateById {α : Type} (l : List (Nat × α)) (id : Nat) (f : α → α) :
    List (Nat × α) :=
  match l with
  | [] => []
  | (k, v) :: rest =>
    if k = id then (k, f v) :: rest else (k, v) :: updateById rest id f

/-- Primary-key property of a table: no two rows share a key. -/
def keysNodup {α : Type} (l : List (Nat × α)) : Prop :=
  (l.map Prod.fst).Nodup

/-- `COUNT(*)` of transactions for a given book with status 'borrowed'
(the live aggregation both backends use for a book's active loans). -/
def activeCountForBook (trans : List (Nat × Transaction)) (bid : Nat) : Nat :=
  match trans with
  | [] => 0
  | p :: rest =>
    (if p.2.book_id = bid ∧ p.2.status = LoanStatus.borrowed then 1 else 0) +
      activeCountForBook rest bid

/-- `COUNT(*)` of transactions for a given member with status 'borrowed'
(`active_borrowings` in the sqlite join, `countDocuments` in mongoose). -/
def activeCountForMember (trans : List (Nat × Transaction)) (mid : Nat) : Nat :=
  match trans with
  | [] => 0
  | p :: rest =>
    (if p.2.member_id = mid ∧ p.2.status = LoanStatus.borrowed then 1 else 0) +
      activeCountForMember rest mid

/-- POST /api/borrowing/borrow, sqlite variant
(`src/server/routes/borrowing.js`): look the book up (404 if absent, 400 if
`available_copies <= 0`), look the member up together with its live count of
'borrowed' transactions (404 if absent, 400 if not active or at the cap),
then insert the new transaction (status defaults to 'borrowed',
`borrow_date` defaults to now) and decrement the book's `available_copies`. -/
def borrowBook (st : LibraryState) (book_id member_id : Nat) (due_date : Int)
    (notes : Option String) (now : Int) : LibraryState × Except ApiError Nat :=
  match findById st.books book_id with
  | none => (st, .error (.notFound "Book not found"))
  | some book =>
    if book.available_copies ≤ 0 then
      (st, .error (.conflict "Book is not available"))
    else
      match findById st.members member_id with
      | none => (st, .error (.notFound "Member not found"))
      | some member =>
        if member.membership_status ≠ MembershipStatus.active then
          (st, .error (.conflict "Member account is not active"))
        else if member.max_books ≤
            (activeCountForMember st.transactions member_id : Int) then
          (st, .error (.conflict "Member has reached borrowing limit"))
        else
          ({ st with
              books := updateById st.books book_id
                (fun b => { b with available_copies := b.available_copies - 1 }),
              transactions := st.transactions ++
                [(st.nextTransactionId,
                  { book_id := book_id, member_id := member_id,
                    borrow_date := now, due_date := due_date,
                    return_date := none, status := LoanStatus.borrowed,
                    fine_amount := 0, notes := notes })],
              nextTransactionId := st.nextTransactionId + 1 },
           .ok st.nextTransactionId)

/-- The express-validator layer of POST /borrow: `book_id` and `member_id`
must be integers and `due_date` an ISO-8601 date; a missing or malformed
field (modelled as `none`) yields a 400 before the store is touched.  Note
that `isISO8601` checks well-formedness only — no comparison with the
current time. -/
def borrowRoute (st : LibraryState) (book_id member_id : Option Nat)
    (due_date : Option Int) (notes : Option String) (now : Int) :
    LibraryState × Except ApiError Nat :=
  match book_id, member_id, due_date with
  | some b, some m, some d => borrowBook st b m d notes now
  | _, _, _ => (st, .error (.validation "Validation failed"))

/-- POST /api/borrowing/return/:id, sqlite variant: `return_date` defaults to
now, `fine_amount` defaults to 0.  404 if the transaction is absent, 400 if
its status is not 'borrowed'.  The fine is recomputed whenever the JavaScript
test `!fine_amount` succeeds — i.e. whenever the (supplied or defaulted)
fine is 0 — and the return date is strictly after the due date.  The
transaction row is then rewritten (status 'returned', the notes column is
overwritten with the request's notes) and the book's `available_copies` is
incremented unconditionally. -/
def returnBook (st : LibraryState) (id : Nat) (return_date : Option Int)
    (fine_amount : Option ℚ) (notes : Option String) (now : Int) :
    LibraryState × Except ApiError ℚ :=
  let ret := return_date.getD now
  let fine := fine_amount.getD 0
  match findById st.transactions id with
  | none => (st, .error (.notFound "Borrowing transaction not found"))
  | some t =>
    if t.status ≠ LoanStatus.borrowed then
      (st, .error (.conflict "Book has already been returned"))
    else
      let calculatedFine : ℚ :=
        if fine = 0 ∧ t.due_date < ret then
          ((momentDiffDays ret t.due_date : Int) : ℚ) * (1 / 2)
        else fine
      ({ st with
          transactions := updateById st.transactions id
            (fun tr => { tr with
                return_date := some ret, status := LoanStatus.returned,
                fine_amount := calculatedFine, notes := notes }),
          books := updateById st.books t.book_id
            (fun b => { b with available_copies := b.available_copies + 1 }) },
       .ok calculatedFine)

/-- POST /api/borrowing/renew/:id, sqlite variant: 404 if absent, 400 if the
status is not 'borrowed', otherwise only the `due_date` column is updated. -/
def renewLoan (st : LibraryState) (id : Nat) (new_due_date : Int) :
    LibraryState × Except ApiError Unit :=
  match findById st.transactions id with
  | none => (st, .error (.notFound "Borrowing transaction not found"))
  | some t =>
    if t.status ≠ LoanStatus.borrowed then
      (st, .error (.conflict "Cannot renew returned book"))
    else
      ({ st with
          transactions := updateById st.transactions id
            (fun tr => { tr with due_date := new_due_date }) },
       .ok ())

/-- PUT /api/books/:id, sqlite variant (`src/server/routes/books.js`):
`total_copies` must be an integer ≥ 1 (express-validator); the handler then
derives `borrowed_count = total_copies - available_copies` from the stored
counters, rejects the update if `total_copies - borrowed_count < 0`, and
otherwise rewrites the row with `available_copies = total_copies -
borrowed_count` (the `cover_image` column is not part of the UPDATE). -/
def updateBookRoute (st : LibraryState) (id : Nat) (title author : String)
    (isbn genre : Option String) (publication_year : Option Int)
    (total_copies : Int) (description : Option String) :
    LibraryState × Except ApiError Unit :=
  if total_copies < 1 then
    (st, .error (.validation "Total copies must be at least 1"))
  else
    match findById st.books id with
    | none => (st, .error (.notFound "Book not found"))
    | some book =>
      let borrowed_count := book.total_copies - book.available_copies
      let new_available := total_copies - borrowed_count
      if new_available < 0 then
        (st, .error (.conflict "Cannot reduce total copies below currently borrowed copies"))
      else
        ({ st with
            books := updateById st.books id
              (fun b => { b with
                  title := title, author := author, isbn := isbn,
                  genre := genre, publication_year := publication_year,
                  total_copies := total_copies,
                  available_copies := new_available,
                  description := description }) },
         .ok ())

/-- POST /api/members, sqlite variant (`src/server/routes/members.js`):
INSERT with `max_books || 5`; `membership_status` takes the column default
'active'.  A duplicate email violates the UNIQUE constraint and yields a
400. -/
def createMemberRoute (st : LibraryState) (name email : String)
    (phone address : Option String) (max_books : Option Int) :
    LibraryState × Except ApiError Nat :=
  if st.members.any (fun p => p.2.email == email) then
    (st, .error (.conflict "Member with this email already exists"))
  else
    ({ st with
        members := st.members ++
          [(st.nextMemberId,
            { name := name, email := email, phone := phone, address := address,
              membership_status := MembershipStatus.active,
              max_books := jsNumOr max_books 5 })],
        nextMemberId := st.nextMemberId + 1 },
     .ok st.nextMemberId)

/-- PUT /api/members/:id, sqlite variant: rewrites every column of the row
from the request body (404 when no row matches, 400 when the new email
collides with another member's).  In particular `max_books` is written
as supplied, with no check against the member's current active loans. -/
def updateMemberRoute (st : LibraryState) (id : Nat) (name email : String)
    (phone address : Option String) (membership_status : MembershipStatus)
    (max_books : Int) : LibraryState × Except ApiError Unit :=
  match findById st.members id with
  | none => (st, .error (.notFound "Member not found"))
  | some _ =>
    if st.members.any (fun p => p.1 != id && p.2.email == email) then
      (st, .error (.conflict "Member with this email already exists"))
    else
      ({ st with
          members := updateById st.members id
            (fun _ => { name := name, email := email, phone := phone,
                        address := address,
                        membership_status := membership_status,
                        max_books := max_books }) },
       .ok ())

/-- The mongoose `borrowingTransactionSchema.pre('save')` middleware
(`src/server/models/BorrowingTransaction.js`): on every save of a document
whose status is 'borrowed' and whose due date lies strictly before the
current time, the status is rewritten to 'overdue'. -/
def preSaveStatus (t : Transaction) (now : Int) : Transaction :=
  if t.status = LoanStatus.borrowed ∧ t.due_date < now then
    { t with status := LoanStatus.overdue }
  else t

/-- The mongoose instance method `calculateFine(returnDate = new Date())`:
days overdue (truncated) times 0.50 when the return date is strictly after
the due date, else 0. -/
def Transaction.calculateFine (t : Transaction) (returnDate : Int) : ℚ :=
  if t.due_date < returnDate then
    ((momentDiffDays returnDate t.due_date : Int) : ℚ) * (1 / 2)
  else 0

/-- POST /api/borrowing/renew/:id, mongoose variant, restricted to the found
document: rejects a document whose status is not 'borrowed', otherwise sets
`due_date` and saves — and saving runs the `pre('save')` middleware on the
updated document. -/
def mongooseRenew (t : Transaction) (new_due_date now : Int) :
    Except ApiError Transaction :=
  if t.status ≠ LoanStatus.borrowed then
    .error (.conflict "Cannot renew returned book")
  else
    .ok (preSaveStatus { t with due_date := new_due_date } now)

/-- The mongoose `bookSchema.pre('save')` middleware: clamps
`available_copies` down to `total_copies` whenever it exceeds it. -/
def bookPreSave (b : Book) : Book :=
  if b.total_copies < b.available_copies then
    { b with available_copies := b.total_copies }
  else b

/-- The store-mutating operations under scrutiny: the three Loan-Ledger
operations plus the catalog edit, each carrying its request fields. -/
inductive Op where
  | borrowOp (book_id member_id : Nat) (due_date : Int) (notes : Option String)
  | returnOp (id : Nat) (return_date : Option Int) (fine_amount : Option ℚ)
      (notes : Option String)
  | renewOp (id : Nat) (new_due_date : Int)
  | updateBookOp (id : Nat) (title author : String) (isbn genre : Option String)
      (publication_year : Option Int) (total_copies : Int)
      (description : Option String)

/-- State reached by running one operation (the committed store, whether the
request succeeded or failed). -/
def applyOp (st : LibraryState) (now : Int) : Op → LibraryState
  | .borrowOp b m d n => (borrowBook st b m d n now).1
  | .returnOp id rd fa n => (returnBook st id rd fa n now).1
  | .renewOp id nd => (renewLoan st id nd).1
  | .updateBookOp id ti au isbn ge py tc de =>
      (updateBookRoute st id ti au isbn ge py tc de).1

/-- Representation invariant of the catalog: every stored book's
`available_copies` equals `total_copies` minus its live count of 'borrowed'
transactions, and is nonnegative. -/
def booksConsistent (st : LibraryState) : Prop :=
  ∀ p ∈ st.books,
    p.2.available_copies =
      p.2.total_copies - (activeCountForBook st.transactions p.1 : Int) ∧
    0 ≤ p.2.available_copies

/-- The spec's availability bounds: `0 ≤ available_copies ≤ total_copies`. -/
def booksInRange (st : LibraryState) : Prop :=
  ∀ p ∈ st.books,
    0 ≤ p.2.available_copies ∧ p.2.available_copies ≤ p.2.total_copies

/-- The spec's borrowing-cap bound: every stored member's live count of
'borrowed' transactions is at most its `max_books`. -/
def membersCapOK (st : LibraryState) : Prop :=
  ∀ p ∈ st.members,
    (activeCountForMember st.transactions p.1 : Int) ≤ p.2.max_books

/-- Modelled from the spec: the specified fine for a return, `max(0,
floor(returnDate − due_date, in whole days)) × 0.50` — written from the
spec's words, to be compared with the code's computation. -/
def specFine (due ret : Int) : ℚ :=
  ((max 0 ((ret - due).fdiv msPerDay) : Int) : ℚ) * (1 / 2)

/-- The fine value a successful sqlite return records, extracted as a
function for the lemmas below (proved to be what `returnBook` writes). -/
def returnFine (t : Transaction) (rd : Option Int) (fa : Option ℚ) (now : Int) : ℚ :=
  if fa.getD 0 = 0 ∧ t.due_date < rd.getD now then
    ((momentDiffDays (rd.getD now) t.due_date : Int) : ℚ) * (1 / 2)
  else fa.getD 0

/-! ### Concrete fixtures used by witnesses and counterexamples -/

/-- A catalog row with three copies, all available. -/
def sampleBook : Book :=
  { title := "Sample", author := "Author", isbn := none, genre := none,
    publication_year := none, total_copies := 3, available_copies := 3,
    description := none, cover_image := none }

/-- An active member with the default cap of five books. -/
def sampleMember : Member :=
  { name := "Jane", email := "jane@example.com", phone := none, address := none,
    membership_status := MembershipStatus.active, max_books := 5 }

/-- An active loan of book 1 by member 1, due at 2024-01-01T00:00:00Z
(epoch milliseconds). -/
def sampleLoan : Transaction :=
  { book_id := 1, member_id := 1, borrow_date := 1703980800000,
    due_date := 1704067200000, return_date := none,
    status := LoanStatus.borrowed, fine_amount := 0, notes := none }

/-- The same loan after a normal return. -/
def returnedLoan : Transaction :=
  { sampleLoan with
      status := LoanStatus.returned, return_date := some 1704326400000 }

/-- A store with one book (2 of 3 copies available), one member, and the one
active loan: consistent and inside every bound. -/
def sampleState : LibraryState :=
  { books := [(1, { sampleBook with available_copies := 2 })],
    members := [(1, sampleMember)],
    transactions := [(1, sampleLoan)],
    nextTransactionId := 2, nextMemberId := 2 }

/-- A store where member 1 has two active loans of book 1. -/
def twoLoanState : LibraryState :=
  { books := [(1, { sampleBook with available_copies := 1 })],
    members := [(1, sampleMember)],
    transactions := [(1, sampleLoan), (2, sampleLoan)],
    nextTransactionId := 3, nextMemberId := 2 }

/-- A store with the book and member but no loans yet. -/
def freshState : LibraryState :=
  { books := [(1, sampleBook)], members := [(1, sampleMember)],
    transactions := [], nextTransactionId := 1, nextMemberId := 2 }

/-- The empty store. -/
def emptyState : LibraryState :=
  { books := [], members := [], transactions := [],
    nextTransactionId := 1, nextMemberId := 1 }

/-! ### Association-list and counting lemmas -/

theorem findById_updateById_self {α : Type} (l : List (Nat × α)) (id : Nat)
    (f : α → α) : findById (updateById l id f) id = (findById l id).map f := by
  induction l with
  | nil => simp [findById, updateById]
  | cons p rest ih =>
    obtain ⟨k, v⟩ := p
    by_cases hk : k = id
    · simp [findById, updateById, hk]
    · simp [findById, updateById, hk, ih]

theorem findById_updateById_ne {α : Type} (l : List (Nat × α)) (id id2 : Nat)
    (f : α → α) (h : id2 ≠ id) :
    findById (updateById l id f) id2 = findById l id2 := by
  induction l with
  | nil => simp [findById, updateById]
  | cons p rest ih =>
    obtain ⟨k, v⟩ := p
    by_cases hk : k = id
    · subst hk
      simp [findById, updateById, Ne.symm h]
    · by_cases hk2 : k = id2
      · subst hk2
        simp [findById, updateById, hk]
      · simp [findById, updateById, hk, hk2, ih]

theorem updateById_map_fst {α : Type} (l : List (Nat × α)) (id : Nat)
    (f : α → α) : (updateById l id f).map Prod.fst = l.map Prod.fst := by
  induction l with
  | nil => simp [updateById]
  | cons p rest ih =>
    obtain ⟨k, v⟩ := p
    by_cases hk : k = id
    · simp [updateById, hk]
    · simp [updateById, hk, ih]

theorem findById_mem {α : Type} (l : List (Nat × α)) (id : Nat) (v : α)
    (hnd : keysNodup l) (h : (id, v) ∈ l) : findById l id = some v := by
  induction l with
  | nil => simp at h
  | cons p rest ih =>
    obtain ⟨k, w⟩ := p
    unfold keysNodup at hnd
    simp only [List.map_cons, List.nodup_cons] at hnd
    rcases List.mem_cons.mp h with h1 | h2
    · rw [Prod.ext_iff] at h1
      obtain ⟨h1a, h1b⟩ := h1
      simp only at h1a h1b
      simp [findById, h1a.symm, h1b]
    · have hk : k ≠ id := by
        intro hkid
        subst hkid
        exact hnd.1 (List.mem_map_of_mem Prod.fst h2)
      simp [findById, hk, ih hnd.2 h2]

theorem mem_updateById {α : Type} (l : List (Nat × α)) (id : Nat) (f : α → α)
    (p : Nat × α) (hnd : keysNodup l) (h : p ∈ updateById l id f) :
    (p ∈ l ∧ p.1 ≠ id) ∨ ∃ v, (id, v) ∈ l ∧ p = (id, f v) := by
  induction l with
  | nil => simp [updateById] at h
  | cons q rest ih =>
    obtain ⟨k, w⟩ := q
    unfold keysNodup at hnd
    simp only [List.map_cons, List.nodup_cons] at hnd
    by_cases hk : k = id
    · subst hk
      simp only [updateById, if_pos rfl] at h
      rcases List.mem_cons.mp h with h1 | h2
      · exact Or.inr ⟨w, List.mem_cons_self _ _, h1⟩
      · left
        refine ⟨List.mem_cons_of_mem _ h2, ?_⟩
        intro hp
        exact hnd.1 (hp ▸ List.mem_map_of_mem Prod.fst h2)
    · simp only [updateById, if_neg hk] at h
      rcases List.mem_cons.mp h with h1 | h2
      · subst h1
        exact Or.inl ⟨List.mem_cons_self _ _, hk⟩
      · rcases ih hnd.2 h2 with ⟨hmem, hne⟩ | ⟨v, hv, hp⟩
        · exact Or.inl ⟨List.mem_cons_of_mem _ hmem, hne⟩
        · exact Or.inr ⟨v, List.mem_cons_of_mem _ hv, hp⟩

theorem findById_append_fresh {α : Type} (l : List (Nat × α)) (n : Nat) (v : α)
    (hfresh : ∀ p ∈ l, p.1 ≠ n) : findById (l ++ [(n, v)]) n = some v := by
  induction l with
  | nil => simp [findById]
  | cons p rest ih =>
    obtain ⟨k, w⟩ := p
    have hk : k ≠ n := hfresh (k, w) (List.mem_cons_self _ _)
    simp only [List.cons_append, findById, if_neg hk]
    exact ih fun q hq => hfresh q (List.mem_cons_of_mem _ hq)

theorem activeCountForBook_append (l : List (Nat × Transaction)) (n : Nat)
    (t : Transaction) (bid : Nat) :
    activeCountForBook (l ++ [(n, t)]) bid =
      activeCountForBook l bid +
        (if t.book_id = bid ∧ t.status = LoanStatus.borrowed then 1 else 0) := by
  induction l with
  | nil => simp [activeCountForBook]
  | cons p rest ih => simp [activeCountForBook, ih]; omega

theorem activeCountForMember_append (l : List (Nat × Transaction)) (n : Nat)
    (t : Transaction) (mid : Nat) :
    activeCountForMember (l ++ [(n, t)]) mid =
      activeCountForMember l mid +
        (if t.member_id = mid ∧ t.status = LoanStatus.borrowed then 1 else 0) := by
  induction l with
  | nil => simp [activeCountForMember]
  | cons p rest ih => simp [activeCountForMember, ih]; omega

theorem activeCountForBook_updateById_frame (l : List (Nat × Transaction))
    (id bid : Nat) (f : Transaction → Transaction)
    (hb : ∀ tr, (f tr).book_id = tr.book_id)
    (hs : ∀ tr, (f tr).status = tr.status) :
    activeCountForBook (updateById l id f) bid = activeCountForBook l bid := by
  induction l with
  | nil => simp [updateById]
  | cons p rest ih =>
    obtain ⟨k, v⟩ := p
    by_cases hk : k = id
    · simp [updateById, hk, activeCountForBook, hb v, hs v]
    · simp [updateById, hk, activeCountForBook, ih]

theorem activeCountForMember_updateById_frame (l : List (Nat × Transaction))
    (id mid : Nat) (f : Transaction → Transaction)
    (hb : ∀ tr, (f tr).member_id = tr.member_id)
    (hs : ∀ tr, (f tr).status = tr.status) :
    activeCountForMember (updateById l id f) mid = activeCountForMember l mid := by
  induction l with
  | nil => simp [updateById]
  | cons p rest ih =>
    obtain ⟨k, v⟩ := p
    by_cases hk : k = id
    · simp [updateById, hk, activeCountForMember, hb v, hs v]
    · simp [updateById, hk, activeCountForMember, ih]

theorem activeCountForBook_updateById_return (l : List (Nat × Transaction))
    (id : Nat) (t : Transaction) (bid : Nat) (f : Transaction → Transaction)
    (h : findById l id = some t) (ht : t.status = LoanStatus.borrowed)
    (hb : ∀ tr, (f tr).book_id = tr.book_id)
    (hs : ∀ tr, (f tr).status = LoanStatus.returned) :
    activeCountForBook l bid =
      activeCountForBook (updateById l id f) bid +
        (if t.book_id = bid then 1 else 0) := by
  induction l with
  | nil => simp [findById] at h
  | cons p rest ih =>
    obtain ⟨k, v⟩ := p
    by_cases hk : k = id
    · simp only [findById, if_pos hk] at h
      injection h with hv
      rw [← hv] at ht ⊢
      simp only [updateById, if_pos hk, activeCountForBook, hb v, hs v, ht]
      by_cases hbid : v.book_id = bid <;> simp [hbid, Nat.add_comm]
    · simp only [findById, if_neg hk] at h
      simp only [updateById, if_neg hk, activeCountForBook, ih h]
      omega

theorem activeCountForMember_updateById_return (l : List (Nat × Transaction))
    (id : Nat) (t : Transaction) (mid : Nat) (f : Transaction → Transaction)
    (h : findById l id = some t) (ht : t.status = LoanStatus.borrowed)
    (hb : ∀ tr, (f tr).member_id = tr.member_id)
    (hs : ∀ tr, (f tr).status = LoanStatus.returned) :
    activeCountForMember l mid =
      activeCountForMember (updateById l id f) mid +
        (if t.member_id = mid then 1 else 0) := by
  induction l with
  | nil => simp [findById] at h
  | cons p rest ih =>
    obtain ⟨k, v⟩ := p
    by_cases hk : k = id
    · simp only [findById, if_pos hk] at h
      injection h with hv
      rw [← hv] at ht ⊢
      simp only [updateById, if_pos hk, activeCountForMember, hb v, hs v, ht]
      by_cases hmid : v.member_id = mid <;> simp [hmid, Nat.add_comm]
    · simp only [findById, if_neg hk] at h
      simp only [updateById, if_neg hk, activeCountForMember, ih h]
      omega

/-! ### Day-difference arithmetic -/

theorem computedFine_eq_specFine (due ret : Int) :
    (if due < ret then ((momentDiffDays ret due : Int) : ℚ) * (1 / 2) else 0) =
      specFine due ret := by
  unfold specFine momentDiffDays msPerDay
  by_cases h : due < ret
  · rw [if_pos h]
    rw [Int.tdiv_eq_ediv (by omega) (by norm_num)]
    rw [Int.fdiv_eq_ediv _ (by norm_num)]
    have hnn : 0 ≤ (ret - due) / 86400000 := Int.ediv_nonneg (by omega) (by norm_num)
    rw [max_eq_right hnn]
  · rw [if_neg h]
    rw [Int.fdiv_eq_ediv _ (by norm_num)]
    have hle : (ret - due) / 86400000 ≤ 0 := by omega
    rw [max_eq_left hle]
    norm_num

/-! ### Evaluation lemmas for the route handlers -/

theorem returnBook_notFound (st : LibraryState) (id : Nat) (rd : Option Int)
    (fa : Option ℚ) (n : Option String) (now : Int)
    (ht : findById st.transactions id = none) :
    returnBook st id rd fa n now =
      (st, .error (.notFound "Borrowing transaction not found")) := by
  simp [returnBook, ht]

theorem returnBook_already (st : LibraryState) (id : Nat) (t : Transaction)
    (rd : Option Int) (fa : Option ℚ) (n : Option String) (now : Int)
    (ht : findById st.transactions id = some t)
    (hs : t.status ≠ LoanStatus.borrowed) :
    returnBook st id rd fa n now =
      (st, .error (.conflict "Book has already been returned")) := by
  simp [returnBook, ht, hs]

theorem returnBook_active (st : LibraryState) (id : Nat) (t : Transaction)
    (rd : Option Int) (fa : Option ℚ) (n : Option String) (now : Int)
    (ht : findById st.transactions id = some t)
    (hs : t.status = LoanStatus.borrowed) :
    returnBook st id rd fa n now =
      ({ st with
          transactions := updateById st.transactions id
            (fun tr => { tr with
                return_date := some (rd.getD now),
                status := LoanStatus.returned,
                fine_amount := returnFine t rd fa now, notes := n }),
          books := updateById st.books t.book_id
            (fun b => { b with available_copies := b.available_copies + 1 }) },
       .ok (returnFine t rd fa now)) := by
  simp [returnBook, returnFine, ht, hs]

theorem findById_returnBook (st : LibraryState) (id : Nat) (t : Transaction)
    (rd : Option Int) (fa : Option ℚ) (n : Option String) (now : Int)
    (ht : findById st.transactions id = some t)
    (hs : t.status = LoanStatus.borrowed) :
    findById (returnBook st id rd fa n now).1.transactions id =
      some { t with
              return_date := some (rd.getD now), status := LoanStatus.returned,
              fine_amount := returnFine t rd fa now, notes := n } := by
  rw [returnBook_active st id t rd fa n now ht hs]
  show findById (updateById st.transactions id _) id = _
  rw [findById_updateById_self, ht]
  rfl

theorem renewLoan_notFound (st : LibraryState) (id : Nat) (nd : Int)
    (ht : findById st.transactions id = none) :
    renewLoan st id nd =
      (st, .error (.notFound "Borrowing transaction not found")) := by
  simp [renewLoan, ht]

theorem renewLoan_already (st : LibraryState) (id : Nat) (t : Transaction)
    (nd : Int) (ht : findById st.transactions id = some t)
    (hs : t.status ≠ LoanStatus.borrowed) :
    renewLoan st id nd = (st, .error (.conflict "Cannot renew returned book")) := by
  simp [renewLoan, ht, hs]

theorem renewLoan_active (st : LibraryState) (id : Nat) (t : Transaction)
    (nd : Int) (ht : findById st.transactions id = some t)
    (hs : t.status = LoanStatus.borrowed) :
    renewLoan st id nd =
      ({ st with
          transactions := updateById st.transactions id
            (fun tr => { tr with due_date := nd }) },
       .ok ()) := by
  simp [renewLoan, ht, hs]

theorem borrowBook_success (st : LibraryState) (bid mid : Nat) (d : Int)
    (n : Option String) (now : Int) (book : Book) (member : Member)
    (hb : findById st.books bid = some book)
    (ha : 0 < book.available_copies)
    (hm : findById st.members mid = some member)
    (hact : member.membership_status = MembershipStatus.active)
    (hcap : (activeCountForMember st.transactions mid : Int) < member.max_books) :
    borrowBook st bid mid d n now =
      ({ st with
          books := updateById st.books bid
            (fun b => { b with available_copies := b.available_copies - 1 }),
          transactions := st.transactions ++
            [(st.nextTransactionId,
              { book_id := bid, member_id := mid, borrow_date := now,
                due_date := d, return_date := none,
                status := LoanStatus.borrowed, fine_amount := 0, notes := n })],
          nextTransactionId := st.nextTransactionId + 1 },
       .ok st.nextTransactionId) := by
  have ha' : ¬ book.available_copies ≤ 0 := by omega
  have hcap' : ¬ member.max_books ≤ (activeCountForMember st.transactions mid : Int) := by
    omega
  simp [borrowBook, hb, ha', hm, hact, hcap']

theorem borrowBook_cases (st : LibraryState) (bid mid : Nat) (d : Int)
    (n : Option String) (now : Int) :
    (borrowBook st bid mid d n now).1 = st ∨
    (∃ book member, findById st.books bid = some book ∧
      0 < book.available_copies ∧
      findById st.members mid = some member ∧
      member.membership_status = MembershipStatus.active ∧
      (activeCountForMember st.transactions mid : Int) < member.max_books ∧
      (borrowBook st bid mid d n now).1 =
        { st with
            books := updateById st.books bid
              (fun b => { b with available_copies := b.available_copies - 1 }),
            transactions := st.transactions ++
              [(st.nextTransactionId,
                { book_id := bid, member_id := mid, borrow_date := now,
                  due_date := d, return_date := none,
                  status := LoanStatus.borrowed, fine_amount := 0, notes := n })],
            nextTransactionId := st.nextTransactionId + 1 }) := by
  rcases hb : findById st.books bid with _ | book
  · left; simp [borrowBook, hb]
  · by_cases ha : book.available_copies ≤ 0
    · left; simp [borrowBook, hb, ha]
    · rcases hm : findById st.members mid with _ | member
      · left; simp [borrowBook, hb, ha, hm]
      · by_cases hact : member.membership_status = MembershipStatus.active
        · by_cases hcap : member.max_books ≤
              (activeCountForMember st.transactions mid : Int)
          · left; simp [borrowBook, hb, ha, hm, hact, hcap]
          · right
            refine ⟨book, member, rfl, by omega, rfl, hact, by omega, ?_⟩
            rw [borrowBook_success st bid mid d n now book member hb (by omega)
              hm hact (by omega)]
        · left; simp [borrowBook, hb, ha, hm, hact]

theorem returnBook_cases (st : LibraryState) (id : Nat) (rd : Option Int)
    (fa : Option ℚ) (n : Option String) (now : Int) :
    (returnBook st id rd fa n now).1 = st ∨
    (∃ t, findById st.transactions id = some t ∧
      t.status = LoanStatus.borrowed ∧
      (returnBook st id rd fa n now).1 =
        { st with
            transactions := updateById st.transactions id
              (fun tr => { tr with
                  return_date := some (rd.getD now),
                  status := LoanStatus.returned,
                  fine_amount := returnFine t rd fa now, notes := n }),
            books := updateById st.books t.book_id
              (fun b => { b with available_copies := b.available_copies + 1 }) }) := by
  rcases ht : findById st.transactions id with _ | t
  · left; rw [returnBook_notFound st id rd fa n now ht]
  · by_cases hs : t.status = LoanStatus.borrowed
    · right
      exact ⟨t, rfl, hs, by rw [returnBook_active st id t rd fa n now ht hs]⟩
    · left; rw [returnBook_already st id t rd fa n now ht hs]

theorem renewLoan_cases (st : LibraryState) (id : Nat) (nd : Int) :
    (renewLoan st id nd).1 = st ∨
    (∃ t, findById st.transactions id = some t ∧
      t.status = LoanStatus.borrowed ∧
      (renewLoan st id nd).1 =
        { st with
            transactions := updateById st.transactions id
              (fun tr => { tr with due_date := nd }) }) := by
  rcases ht : findById st.transactions id with _ | t
  · left; rw [renewLoan_notFound st id nd ht]
  · by_cases hs : t.status = LoanStatus.borrowed
    · right; exact ⟨t, rfl, hs, by rw [renewLoan_active st id t nd ht hs]⟩
    · left; rw [renewLoan_already st id t nd ht hs]

theorem updateBookRoute_cases (st : LibraryState) (id : Nat)
    (ti au : String) (isbn ge : Option String) (py : Option Int) (tc : Int)
    (de : Option String) :
    (updateBookRoute st id ti au isbn ge py tc de).1 = st ∨
    (∃ book, findById st.books id = some book ∧
      0 ≤ tc - (book.total_copies - book.available_copies) ∧
      (updateBookRoute st id ti au isbn ge py tc de).1 =
        { st with
            books := updateById st.books id
              (fun b => { b with
                  title := ti, author := au, isbn := isbn, genre := ge,
                  publication_year := py, total_copies := tc,
                  available_copies :=
                    tc - (book.total_copies - book.available_copies),
                  description := de }) }) := by
  by_cases hv : tc < 1
  · left; simp [updateBookRoute, hv]
  · rcases hb : findById st.books id with _ | book
    · left; simp [updateBookRoute, hv, hb]
    · by_cases hneg : tc - (book.total_copies - book.available_copies) < 0
      · left; simp [updateBookRoute, hv, hb, hneg]
      · right
        refine ⟨book, rfl, by omega, ?_⟩
        simp [updateBookRoute, hv, hb, hneg]

/-! ### Claim theorems -/

/-- Claim C1: every failing Borrow leaves the store untouched (no loan record
created, no availability counter changed); a NotFound failure means the
referenced book or member is absent; a Conflict failure means the book has no
available copies, the member is not active, or the member's count of active
loans has reached `max_books`; and whenever any of those conditions holds the
Borrow fails. -/
theorem borrow_failure_characterized (st : LibraryState) (bid mid : Nat)
    (d : Int) (n : Option String) (now : Int) :
    (∀ e, (borrowBook st bid mid d n now).2 = .error e →
        (borrowBook st bid mid d n now).1 = st) ∧
    (∀ msg, (borrowBook st bid mid d n now).2 = .error (.notFound msg) →
        findById st.books bid = none ∨ findById st.members mid = none) ∧
    (∀ msg, (borrowBook st bid mid d n now).2 = .error (.conflict msg) →
        (∃ b, findById st.books bid = some b ∧ b.available_copies ≤ 0) ∨
        (∃ m, findById st.members mid = some m ∧
          m.membership_status ≠ MembershipStatus.active) ∨
        (∃ m, findById st.members mid = some m ∧
          m.max_books ≤ (activeCountForMember st.transactions mid : Int))) ∧
    ((findById st.books bid = none ∨
      (∃ b, findById st.books bid = some b ∧ b.available_copies ≤ 0) ∨
      findById st.members mid = none ∨
      (∃ m, findById st.members mid = some m ∧
        m.membership_status ≠ MembershipStatus.active) ∨
      (∃ m, findById st.members mid = some m ∧
        m.max_books ≤ (activeCountForMember st.transactions mid : Int))) →
      ∃ e, (borrowBook st bid mid d n now).2 = .error e) := by
  rcases hb : findById st.books bid with _ | book
  · have heq : borrowBook st bid mid d n now =
        (st, .error (.notFound "Book not found")) := by simp [borrowBook, hb]
    rw [heq]
    exact ⟨fun e _ => rfl, fun msg _ => Or.inl rfl,
      fun msg h => by simp at h, fun _ => ⟨_, rfl⟩⟩
  · by_cases ha : book.available_copies ≤ 0
    · have heq : borrowBook st bid mid d n now =
          (st, .error (.conflict "Book is not available")) := by
        simp [borrowBook, hb, ha]
      rw [heq]
      exact ⟨fun e _ => rfl, fun msg h => by simp at h,
        fun msg _ => Or.inl ⟨book, rfl, ha⟩, fun _ => ⟨_, rfl⟩⟩
    · rcases hm : findById st.members mid with _ | member
      · have heq : borrowBook st bid mid d n now =
            (st, .error (.notFound "Member not found")) := by
          simp [borrowBook, hb, ha, hm]
        rw [heq]
        exact ⟨fun e _ => rfl, fun msg _ => Or.inr rfl,
          fun msg h => by simp at h, fun _ => ⟨_, rfl⟩⟩
      · by_cases hact : member.membership_status = MembershipStatus.active
        · by_cases hcap : member.max_books ≤
              (activeCountForMember st.transactions mid : Int)
          · have heq : borrowBook st bid mid d n now =
                (st, .error (.conflict "Member has reached borrowing limit")) := by
              simp [borrowBook, hb, ha, hm, hact, hcap]
            rw [heq]
            exact ⟨fun e _ => rfl, fun msg h => by simp at h,
              fun msg _ => Or.inr (Or.inr ⟨member, rfl, hcap⟩),
              fun _ => ⟨_, rfl⟩⟩
          · have heq := borrowBook_success st bid mid d n now book member hb
              (by omega) hm hact (by omega)
            rw [heq]
            refine ⟨fun e h => by simp at h, fun msg h => by simp at h,
              fun msg h => by simp at h, fun h => ?_⟩
            rcases h with h1 | h2 | h3 | h4 | h5
            · simp at h1
            · obtain ⟨b, hb2, hble⟩ := h2
              injection hb2 with hb2
              rw [← hb2] at hble
              exact absurd hble ha
            · simp at h3
            · obtain ⟨m, hm2, hmne⟩ := h4
              injection hm2 with hm2
              exact absurd (hm2 ▸ hact) hmne
            · obtain ⟨m, hm2, hmle⟩ := h5
              injection hm2 with hm2
              rw [← hm2] at hmle
              exact absurd hmle hcap
        · have heq : borrowBook st bid mid d n now =
              (st, .error (.conflict "Member account is not active")) := by
            simp [borrowBook, hb, ha, hm, hact]
          rw [heq]
          exact ⟨fun e _ => rfl, fun msg h => by simp at h,
            fun msg _ => Or.inr (Or.inl ⟨member, rfl, hact⟩),
            fun _ => ⟨_, rfl⟩⟩

/-- Witness for C1: on the empty store a Borrow fails with NotFound, and
the characterization theorem yields that the book or member is indeed
absent. -/
theorem borrow_failure_characterized_witness :
    findById emptyState.books 1 = none ∨ findById emptyState.members 1 = none :=
  (borrow_failure_characterized emptyState 1 1 0 none 0).2.1 "Book not found" rfl

/-- Claim C2 (failing input): a Return of the active loan due 2024-01-01,
made 2024-01-04 with an explicitly supplied fine of 0, records a fine of
1.50 — the `!fine_amount` test treats the supplied 0 as absent and
recomputes, so the explicit 0 is not honoured. -/
theorem return_explicit_zero_fine_recomputed :
    (returnBook sampleState 1 (some 1704326400000) (some 0) none
        1704326400000).2 = .ok ((3 : ℚ) / 2) ∧
    (findById (returnBook sampleState 1 (some 1704326400000) (some 0) none
        1704326400000).1.transactions 1).map Transaction.fine_amount =
      some ((3 : ℚ) / 2) ∧
    ((3 : ℚ) / 2 ≠ 0) := by
  have ht : findById sampleState.transactions 1 = some sampleLoan := rfl
  have hs : sampleLoan.status = LoanStatus.borrowed := rfl
  have hfine : returnFine sampleLoan (some 1704326400000) (some 0)
      1704326400000 = 3 / 2 := by
    have h3 : momentDiffDays ((some (1704326400000 : Int)).getD 1704326400000)
        sampleLoan.due_date = 3 := by decide
    unfold returnFine
    rw [if_pos ⟨rfl, by decide⟩, h3]
    norm_num
  refine ⟨?_, ?_, by norm_num⟩
  · rw [returnBook_active sampleState 1 sampleLoan (some 1704326400000) (some 0)
      none 1704326400000 ht hs, hfine]
  · rw [findById_returnBook sampleState 1 sampleLoan (some 1704326400000)
      (some 0) none 1704326400000 ht hs]
    rw [Option.map_some']
    show some (returnFine sampleLoan (some 1704326400000) (some 0)
      1704326400000) = _
    rw [hfine]

/-- Claim C3 (amended): a loan's status moves only along
borrowed → returned (performed by Return) and borrowed → overdue (performed
by the mongoose pre-save hook when a past-due active document is saved);
a RETURNED loan is left unchanged by the hook, and Return/Renew reject it
with Conflict without touching the store. -/
theorem loan_status_machine (t : Transaction) (now : Int) (st : LibraryState)
    (id : Nat) (rd : Option Int) (fa : Option ℚ) (n : Option String)
    (nd : Int) :
    ((preSaveStatus t now).status = t.status ∨
      (t.status = LoanStatus.borrowed ∧ t.due_date < now ∧
        (preSaveStatus t now).status = LoanStatus.overdue)) ∧
    (t.status = LoanStatus.returned → preSaveStatus t now = t) ∧
    (findById st.transactions id = some t →
      t.status = LoanStatus.returned →
      returnBook st id rd fa n now =
        (st, .error (.conflict "Book has already been returned")) ∧
      renewLoan st id nd =
        (st, .error (.conflict "Cannot renew returned book"))) ∧
    (findById st.transactions id = some t →
      t.status = LoanStatus.borrowed →
      findById (returnBook st id rd fa n now).1.transactions id =
        some { t with
                return_date := some (rd.getD now),
                status := LoanStatus.returned,
                fine_amount := returnFine t rd fa now, notes := n }) := by
  refine ⟨?_, ?_, ?_, ?_⟩
  · unfold preSaveStatus
    by_cases h : t.status = LoanStatus.borrowed ∧ t.due_date < now
    · right
      exact ⟨h.1, h.2, by rw [if_pos h]⟩
    · left
      rw [if_neg h]
  · intro h
    unfold preSaveStatus
    rw [if_neg (by simp [h])]
  · intro ht hs
    have hs' : t.status ≠ LoanStatus.borrowed := by simp [hs]
    exact ⟨returnBook_already st id t rd fa n now ht hs',
      renewLoan_already st id t nd ht hs'⟩
  · intro ht hs
    rw [returnBook_active st id t rd fa n now ht hs]
    show findById (updateById st.transactions id _) id = _
    rw [findById_updateById_self, ht]
    rfl

/-- Witness for C3: the pre-save hook leaves a returned loan unchanged. -/
theorem loan_status_machine_witness :
    preSaveStatus returnedLoan 1704326400000 = returnedLoan :=
  (loan_status_machine returnedLoan 1704326400000 emptyState 1 none none none
    0).2.1 rfl

/-- Counterexample for C3: saving an active loan past its due date rewrites
its status to 'overdue', a value outside the claimed two-state machine. -/
theorem loan_status_machine_counterexample :
    (preSaveStatus sampleLoan 1704326400000).status = LoanStatus.overdue ∧
    LoanStatus.overdue ≠ LoanStatus.borrowed ∧
    LoanStatus.overdue ≠ LoanStatus.returned := by
  decide

/-- Claim C4: returning an active loan succeeds and increments the book's
`available_copies` by exactly one; an immediately repeated Return of the same
loan fails with Conflict ("already returned") and leaves the store exactly as
the first call left it. -/
theorem double_return_second_conflicts (st : LibraryState) (id : Nat)
    (t : Transaction) (book : Book) (rd1 rd2 : Option Int)
    (fa1 fa2 : Option ℚ) (n1 n2 : Option String) (now1 now2 : Int)
    (ht : findById st.transactions id = some t)
    (hs : t.status = LoanStatus.borrowed)
    (hb : findById st.books t.book_id = some book) :
    (∃ q, (returnBook st id rd1 fa1 n1 now1).2 = .ok q) ∧
    findById (returnBook st id rd1 fa1 n1 now1).1.books t.book_id =
      some { book with available_copies := book.available_copies + 1 } ∧
    returnBook (returnBook st id rd1 fa1 n1 now1).1 id rd2 fa2 n2 now2 =
      ((returnBook st id rd1 fa1 n1 now1).1,
        .error (.conflict "Book has already been returned")) := by
  have heq := returnBook_active st id t rd1 fa1 n1 now1 ht hs
  refine ⟨⟨returnFine t rd1 fa1 now1, by rw [heq]⟩, ?_, ?_⟩
  · rw [heq]
    show findById (updateById st.books t.book_id _) t.book_id = _
    rw [findById_updateById_self, hb]
    rfl
  · have ht2 := findById_returnBook st id t rd1 fa1 n1 now1 ht hs
    exact returnBook_already _ id _ rd2 fa2 n2 now2 ht2 (by simp)

/-- Witness for C4: on the sample store the second Return of loan 1 fails
with Conflict and changes nothing. -/
theorem double_return_second_conflicts_witness :
    returnBook (returnBook sampleState 1 none none none 1704326400000).1 1
        none none none 1704326400000 =
      ((returnBook sampleState 1 none none none 1704326400000).1,
        .error (.conflict "Book has already been returned")) :=
  (double_return_second_conflicts sampleState 1 sampleLoan
    { sampleBook with available_copies := 2 } none none none none none none
    1704326400000 1704326400000 rfl rfl rfl).2.2

/-- Claim C5: a Return of an active loan with no supplied fine records
exactly the specified fine `max(0, floor(returnDate − due_date, whole days))
× 0.50`, with `returnDate` defaulting to the current time; the mongoose
`calculateFine` method computes the same function. -/
theorem return_fine_matches_spec (st : LibraryState) (id : Nat)
    (t : Transaction) (rd : Option Int) (n : Option String) (now : Int)
    (ht : findById st.transactions id = some t)
    (hs : t.status = LoanStatus.borrowed) :
    (returnBook st id rd none n now).2 =
      .ok (specFine t.due_date (rd.getD now)) ∧
    findById (returnBook st id rd none n now).1.transactions id =
      some { t with
              return_date := some (rd.getD now),
              status := LoanStatus.returned,
              fine_amount := specFine t.due_date (rd.getD now), notes := n } ∧
    (∀ (t2 : Transaction) (r : Int),
      t2.calculateFine r = specFine t2.due_date r) := by
  have hf : returnFine t rd none now = specFine t.due_date (rd.getD now) := by
    unfold returnFine
    simp only [Option.getD_none, eq_self_iff_true, true_and]
    exact computedFine_eq_specFine t.due_date (rd.getD now)
  refine ⟨?_, ?_, ?_⟩
  · rw [returnBook_active st id t rd none n now ht hs, hf]
  · rw [findById_returnBook st id t rd none n now ht hs, hf]
  · intro t2 r
    unfold Transaction.calculateFine
    exact computedFine_eq_specFine t2.due_date r

/-- Witness for C5: the spec's worked example — due 2024-01-01, returned
2024-01-04, no explicit fine — yields 3 × 0.50 = 1.50. -/
theorem return_fine_matches_spec_witness :
    (returnBook sampleState 1 (some 1704326400000) none none 0).2 =
      .ok ((3 : ℚ) / 2) := by
  have h := (return_fine_matches_spec sampleState 1 sampleLoan
    (some 1704326400000) none 0 rfl rfl).1
  rw [h]
  have hmax : (max 0 ((((some (1704326400000 : Int)).getD 0) -
      sampleLoan.due_date).fdiv msPerDay) : Int) = 3 := by decide
  unfold specFine
  rw [hmax]
  norm_num

theorem booksConsistent_inRange (st : LibraryState)
    (h : booksConsistent st) : booksInRange st := by
  intro p hp
  obtain ⟨he, hge⟩ := h p hp
  have hc : (0 : Int) ≤ (activeCountForBook st.transactions p.1 : Int) :=
    Int.ofNat_nonneg _
  exact ⟨hge, by omega⟩

theorem bookPreSave_le_total (b : Book) :
    (bookPreSave b).available_copies ≤ b.total_copies := by
  unfold bookPreSave
  by_cases h : b.total_copies < b.available_copies
  · rw [if_pos h]
  · rw [if_neg h]
    omega

/-- Claim C6: starting from a consistent catalog (each book's
`available_copies` equal to `total_copies` minus its live active-loan count,
and nonnegative), every Borrow / Return / Renew / book update keeps the
catalog consistent and hence keeps `0 ≤ available_copies ≤ total_copies`
for every book; independently, the mongoose book-save clamp never lets
`available_copies` exceed `total_copies`. -/
theorem availability_bounds_invariant (st : LibraryState) (now : Int)
    (op : Op) (hnd : keysNodup st.books) (hinv : booksConsistent st) :
    keysNodup (applyOp st now op).books ∧
    booksConsistent (applyOp st now op) ∧
    booksInRange (applyOp st now op) ∧
    (∀ b : Book, (bookPreSave b).available_copies ≤ b.total_copies) := by
  have hfinish : ∀ st' : LibraryState, keysNodup st'.books →
      booksConsistent st' →
      keysNodup st'.books ∧ booksConsistent st' ∧ booksInRange st' ∧
        (∀ b : Book, (bookPreSave b).available_copies ≤ b.total_copies) :=
    fun st' h1 h2 => ⟨h1, h2, booksConsistent_inRange st' h2, bookPreSave_le_total⟩
  cases op with
  | borrowOp bid mid d n =>
    simp only [applyOp]
    rcases borrowBook_cases st bid mid d n now with hsame |
      ⟨book, member, hb, ha, hm, hact, hcap, hstate⟩
    · rw [hsame]
      exact hfinish st hnd hinv
    · rw [hstate]
      refine hfinish _ ?_ ?_
      · unfold keysNodup
        show (updateById st.books bid _).map Prod.fst |>.Nodup
        rw [updateById_map_fst]
        exact hnd
      · intro p hp
        rcases mem_updateById st.books bid _ p hnd hp with
          ⟨hmem, hne⟩ | ⟨v, hvmem, hpeq⟩
        · obtain ⟨he, hge⟩ := hinv p hmem
          have hcnt : activeCountForBook (st.transactions ++
              [(st.nextTransactionId,
                { book_id := bid, member_id := mid, borrow_date := now,
                  due_date := d, return_date := none,
                  status := LoanStatus.borrowed, fine_amount := 0,
                  notes := n })]) p.1 =
              activeCountForBook st.transactions p.1 := by
            rw [activeCountForBook_append, if_neg]
            · omega
            · intro hcon
              exact hne hcon.1.symm
          exact ⟨by rw [hcnt]; exact he, hge⟩
        · have hv : v = book := by
            have hfound := findById_mem st.books bid v hnd hvmem
            rw [hb] at hfound
            injection hfound with h2
            exact h2.symm
          subst hv
          obtain ⟨he, hge⟩ := hinv (bid, v) hvmem
          have hcnt : activeCountForBook (st.transactions ++
              [(st.nextTransactionId,
                { book_id := bid, member_id := mid, borrow_date := now,
                  due_date := d, return_date := none,
                  status := LoanStatus.borrowed, fine_amount := 0,
                  notes := n })]) bid =
              activeCountForBook st.transactions bid + 1 := by
            rw [activeCountForBook_append, if_pos ⟨rfl, rfl⟩]
          subst hpeq
          refine ⟨?_, ?_⟩
          · show v.available_copies - 1 = v.total_copies - _
            rw [hcnt]
            simp only at he
            omega
          · show (0 : Int) ≤ v.available_copies - 1
            omega
  | returnOp id rd fa n =>
    simp only [applyOp]
    rcases returnBook_cases st id rd fa n now with hsame | ⟨t, ht, hs, hstate⟩
    · rw [hsame]
      exact hfinish st hnd hinv
    · rw [hstate]
      refine hfinish _ ?_ ?_
      · unfold keysNodup
        show (updateById st.books t.book_id _).map Prod.fst |>.Nodup
        rw [updateById_map_fst]
        exact hnd
      · intro p hp
        have hcnt := fun bid => activeCountForBook_updateById_return
          st.transactions id t bid
          (fun tr => { tr with
              return_date := some (rd.getD now),
              status := LoanStatus.returned,
              fine_amount := returnFine t rd fa now, notes := n })
          ht hs (fun tr => rfl) (fun tr => rfl)
        rcases mem_updateById st.books t.book_id _ p hnd hp with
          ⟨hmem, hne⟩ | ⟨v, hvmem, hpeq⟩
        · obtain ⟨he, hge⟩ := hinv p hmem
          have hcnt' := hcnt p.1
          rw [if_neg (fun hcon => hne hcon.symm)] at hcnt'
          exact ⟨by rw [← Nat.add_zero (activeCountForBook _ p.1), ← hcnt']; exact he,
            hge⟩
        · obtain ⟨he, hge⟩ := hinv (t.book_id, v) hvmem
          have he' : v.available_copies = v.total_copies -
              (activeCountForBook st.transactions t.book_id : Int) := he
          have hge' : (0 : Int) ≤ v.available_copies := hge
          have hcnt' := hcnt t.book_id
          rw [if_pos rfl] at hcnt'
          subst hpeq
          refine ⟨?_, ?_⟩
          · show v.available_copies + 1 = v.total_copies -
              (activeCountForBook (updateById st.transactions id
                (fun tr => { tr with
                    return_date := some (rd.getD now),
                    status := LoanStatus.returned,
                    fine_amount := returnFine t rd fa now, notes := n }))
                t.book_id : Int)
            omega
          · show (0 : Int) ≤ v.available_copies + 1
            omega
  | renewOp id nd =>
    simp only [applyOp]
    rcases renewLoan_cases st id nd with hsame | ⟨t, ht, hs, hstate⟩
    · rw [hsame]
      exact hfinish st hnd hinv
    · rw [hstate]
      refine hfinish _ hnd ?_
      intro p hp
      obtain ⟨he, hge⟩ := hinv p hp
      have hcnt := activeCountForBook_updateById_frame st.transactions id p.1
        (fun tr => { tr with due_date := nd }) (fun tr => rfl) (fun tr => rfl)
      exact ⟨by rw [hcnt]; exact he, hge⟩
  | updateBookOp id ti au isbn ge py tc de =>
    simp only [applyOp]
    rcases updateBookRoute_cases st id ti au isbn ge py tc de with hsame |
      ⟨book, hb, hge0, hstate⟩
    · rw [hsame]
      exact hfinish st hnd hinv
    · rw [hstate]
      refine hfinish _ ?_ ?_
      · unfold keysNodup
        show (updateById st.books id _).map Prod.fst |>.Nodup
        rw [updateById_map_fst]
        exact hnd
      · intro p hp
        rcases mem_updateById st.books id _ p hnd hp with
          ⟨hmem, hne⟩ | ⟨v, hvmem, hpeq⟩
        · exact hinv p hmem
        · have hv : v = book := by
            have hfound := findById_mem st.books id v hnd hvmem
            rw [hb] at hfound
            injection hfound with h2
            exact h2.symm
          subst hv
          obtain ⟨he, hge⟩ := hinv (id, v) hvmem
          have he' : v.available_copies = v.total_copies -
              (activeCountForBook st.transactions id : Int) := he
          subst hpeq
          refine ⟨?_, ?_⟩
          · show tc - (v.total_copies - v.available_copies) =
              tc - (activeCountForBook st.transactions id : Int)
            omega
          · show (0 : Int) ≤ tc - (v.total_copies - v.available_copies)
            omega

/-- Claim C7 (amended): Borrow, Return, Renew and book updates preserve the
bound "count of a member's active loans ≤ max_books" whenever it held
beforehand (Borrow re-checks the cap, Return only lowers the count, the
others leave it unchanged); the member-update route, by contrast, writes a
new `max_books` with no check against the current count and can violate the
bound. -/
theorem member_cap_invariant (st : LibraryState) (now : Int) (op : Op)
    (hndm : keysNodup st.members) (hcap : membersCapOK st) :
    membersCapOK (applyOp st now op) := by
  cases op with
  | borrowOp bid mid d n =>
    simp only [applyOp]
    rcases borrowBook_cases st bid mid d n now with hsame |
      ⟨book, member, hb, ha, hm, hact, hcaplt, hstate⟩
    · rw [hsame]
      exact hcap
    · rw [hstate]
      intro p hp
      obtain ⟨k, m⟩ := p
      have hp' : (k, m) ∈ st.members := hp
      show (activeCountForMember (st.transactions ++
          [(st.nextTransactionId,
            { book_id := bid, member_id := mid, borrow_date := now,
              due_date := d, return_date := none,
              status := LoanStatus.borrowed, fine_amount := 0,
              notes := n })]) k : Int) ≤ m.max_books
      by_cases hk : k = mid
      · have hfound := findById_mem st.members k m hndm hp'
        rw [hk, hm] at hfound
        injection hfound with h2
        rw [activeCountForMember_append, if_pos ⟨hk.symm, rfl⟩, hk, ← h2]
        omega
      · rw [activeCountForMember_append, if_neg (fun hcon => hk hcon.1.symm)]
        have hcap' : (activeCountForMember st.transactions k : Int) ≤
            m.max_books := hcap (k, m) hp'
        omega
  | returnOp id rd fa n =>
    simp only [applyOp]
    rcases returnBook_cases st id rd fa n now with hsame | ⟨t, ht, hs, hstate⟩
    · rw [hsame]
      exact hcap
    · rw [hstate]
      intro p hp
      obtain ⟨k, m⟩ := p
      have hp' : (k, m) ∈ st.members := hp
      have hcnt := activeCountForMember_updateById_return st.transactions id t k
        (fun tr => { tr with
            return_date := some (rd.getD now), status := LoanStatus.returned,
            fine_amount := returnFine t rd fa now, notes := n })
        ht hs (fun tr => rfl) (fun tr => rfl)
      have hcap' : (activeCountForMember st.transactions k : Int) ≤
          m.max_books := hcap (k, m) hp'
      show (activeCountForMember (updateById st.transactions id
          (fun tr => { tr with
              return_date := some (rd.getD now), status := LoanStatus.returned,
              fine_amount := returnFine t rd fa now, notes := n })) k : Int) ≤
        m.max_books
      by_cases hind : t.member_id = k
      · rw [if_pos hind] at hcnt
        omega
      · rw [if_neg hind] at hcnt
        omega
  | renewOp id nd =>
    simp only [applyOp]
    rcases renewLoan_cases st id nd with hsame | ⟨t, ht, hs, hstate⟩
    · rw [hsame]
      exact hcap
    · rw [hstate]
      intro p hp
      obtain ⟨k, m⟩ := p
      have hp' : (k, m) ∈ st.members := hp
      have hcnt := activeCountForMember_updateById_frame st.transactions id k
        (fun tr => { tr with due_date := nd }) (fun tr => rfl) (fun tr => rfl)
      have hcap' : (activeCountForMember st.transactions k : Int) ≤
          m.max_books := hcap (k, m) hp'
      show (activeCountForMember (updateById st.transactions id
          (fun tr => { tr with due_date := nd })) k : Int) ≤ m.max_books
      rw [hcnt]
      exact hcap'
  | updateBookOp id ti au isbn ge py tc de =>
    simp only [applyOp]
    rcases updateBookRoute_cases st id ti au isbn ge py tc de with hsame |
      ⟨book, hb, hge0, hstate⟩
    · rw [hsame]
      exact hcap
    · rw [hstate]
      intro p hp
      exact hcap p hp

/-- Witness for C6: returning loan 1 on the sample store keeps every book
inside `0 ≤ available_copies ≤ total_copies`. -/
theorem availability_bounds_invariant_witness :
    booksInRange (applyOp sampleState 0 (Op.returnOp 1 none none none)) :=
  (availability_bounds_invariant sampleState 0 (Op.returnOp 1 none none none)
    (by unfold keysNodup; decide) (by unfold booksConsistent; decide)).2.2.1

/-- Witness for C7: borrowing on the fresh store keeps every member's
active-loan count within the cap. -/
theorem member_cap_invariant_witness :
    membersCapOK (applyOp freshState 0 (Op.borrowOp 1 1 1704067200000 none)) :=
  member_cap_invariant freshState 0 (Op.borrowOp 1 1 1704067200000 none)
    (by unfold keysNodup; decide) (by unfold membersCapOK; decide)

/-- Counterexample for C7: the member-update route lowers `max_books` of a
member with two active loans to 1, leaving the count above the cap — so the
bound does not hold after every committed operation. -/
theorem member_cap_invariant_counterexample :
    membersCapOK twoLoanState ∧
    ¬ membersCapOK (updateMemberRoute twoLoanState 1 "Jane" "jane@example.com"
        none none MembershipStatus.active 1).1 := by
  constructor
  · unfold membersCapOK
    decide
  · unfold membersCapOK
    decide

/-- Claim C8 (amended): Renew answers NotFound for an absent loan and
Conflict for a non-active one, leaving the store unchanged; on an active
loan the sqlite route rewrites only `due_date` (books, members and every
other loan row untouched); the mongoose route does the same except that its
save re-runs the overdue hook, so a new due date lying strictly in the past
also flips the loan's status to 'overdue'. -/
theorem renew_only_due_date (st : LibraryState) (id : Nat)
    (t t2 : Transaction) (nd now : Int) :
    (findById st.transactions id = none →
      renewLoan st id nd =
        (st, .error (.notFound "Borrowing transaction not found"))) ∧
    (findById st.transactions id = some t →
      t.status ≠ LoanStatus.borrowed →
      renewLoan st id nd =
        (st, .error (.conflict "Cannot renew returned book"))) ∧
    (findById st.transactions id = some t →
      t.status = LoanStatus.borrowed →
      (renewLoan st id nd).2 = .ok () ∧
      (renewLoan st id nd).1.books = st.books ∧
      (renewLoan st id nd).1.members = st.members ∧
      findById (renewLoan st id nd).1.transactions id =
        some { t with due_date := nd } ∧
      (∀ id2, id2 ≠ id → findById (renewLoan st id nd).1.transactions id2 =
        findById st.transactions id2)) ∧
    (t2.status = LoanStatus.borrowed →
      mongooseRenew t2 nd now =
        .ok (if nd < now then
              { t2 with due_date := nd, status := LoanStatus.overdue }
             else { t2 with due_date := nd })) := by
  refine ⟨renewLoan_notFound st id nd, renewLoan_already st id t nd, ?_, ?_⟩
  · intro ht hs
    rw [renewLoan_active st id t nd ht hs]
    refine ⟨rfl, rfl, rfl, ?_, ?_⟩
    · show findById (updateById st.transactions id _) id = _
      rw [findById_updateById_self, ht]
      rfl
    · intro id2 hne
      show findById (updateById st.transactions id _) id2 = _
      exact findById_updateById_ne st.transactions id id2 _ hne
  · intro hs2
    unfold mongooseRenew
    rw [if_neg (by simp [hs2])]
    unfold preSaveStatus
    by_cases hlt : nd < now
    · rw [if_pos ⟨hs2, hlt⟩, if_pos hlt]
    · rw [if_neg (fun hcon => hlt hcon.2), if_neg hlt]

/-- Witness for C8: renewing the active sample loan succeeds and leaves the
book table untouched. -/
theorem renew_only_due_date_witness :
    (renewLoan sampleState 1 1704672000000).2 = .ok () ∧
    (renewLoan sampleState 1 1704672000000).1.books = sampleState.books := by
  have h := (renew_only_due_date sampleState 1 sampleLoan sampleLoan
    1704672000000 0).2.2.1 rfl rfl
  exact ⟨h.1, h.2.1⟩

/-- Counterexample for C8: the mongoose renew of an active loan to a due
date in the past succeeds but also rewrites status to 'overdue' — a field
other than `due_date` changes. -/
theorem renew_only_due_date_counterexample :
    mongooseRenew sampleLoan 0 86400000 =
      .ok { sampleLoan with due_date := 0, status := LoanStatus.overdue } ∧
    LoanStatus.overdue ≠ sampleLoan.status := by
  exact ⟨rfl, by decide⟩

/-- Claim C9 (amended): the borrow route rejects a missing or malformed
`due_date` with a validation error before touching the store, but performs
no comparison of a well-formed `due_date` with the current time: the
request's outcome is identical for any two due dates, so a date strictly in
the past is accepted. -/
theorem borrow_due_date_validation (st : LibraryState) (bid mid : Nat)
    (n : Option String) (now d d1 d2 : Int) :
    borrowRoute st (some bid) (some mid) none n now =
      (st, .error (.validation "Validation failed")) ∧
    borrowRoute st (some bid) (some mid) (some d) n now =
      borrowBook st bid mid d n now ∧
    (borrowBook st bid mid d1 n now).2 = (borrowBook st bid mid d2 n now).2 := by
  refine ⟨rfl, rfl, ?_⟩
  rcases hb : findById st.books bid with _ | book
  · simp [borrowBook, hb]
  · by_cases ha : book.available_copies ≤ 0
    · simp [borrowBook, hb, ha]
    · rcases hm : findById st.members mid with _ | member
      · simp [borrowBook, hb, ha, hm]
      · by_cases hact : member.membership_status = MembershipStatus.active
        · by_cases hcap : member.max_books ≤
              (activeCountForMember st.transactions mid : Int)
          · simp [borrowBook, hb, ha, hm, hact, hcap]
          · simp [borrowBook, hb, ha, hm, hact, hcap]
        · simp [borrowBook, hb, ha, hm, hact]

/-- Witness for C9: on the empty store a borrow with no due date fails
validation and changes nothing. -/
theorem borrow_due_date_validation_witness :
    borrowRoute emptyState (some 1) (some 1) none none 0 =
      (emptyState, .error (.validation "Validation failed")) :=
  (borrow_due_date_validation emptyState 1 1 none 0 0 0 0).1

/-- Counterexample for C9: a borrow whose due date (epoch 0) lies strictly
before the current time (one day later) is accepted and creates the loan
record — no future-or-present check exists. -/
theorem borrow_due_date_validation_counterexample :
    (0 : Int) < 86400000 ∧
    (borrowRoute freshState (some 1) (some 1) (some 0) none 86400000).2 =
      .ok 1 ∧
    findById (borrowRoute freshState (some 1) (some 1) (some 0) none
        86400000).1.transactions 1 =
      some { book_id := 1, member_id := 1, borrow_date := 86400000,
             due_date := 0, return_date := none,
             status := LoanStatus.borrowed, fine_amount := 0, notes := none } := by
  exact ⟨by decide, rfl, rfl⟩

/-- Claim C10: creating a member without supplying `max_books` stores the
member with the default borrowing cap of 5. -/
theorem create_member_default_cap (st : LibraryState) (name email : String)
    (phone address : Option String)
    (hemail : ∀ p ∈ st.members, p.2.email ≠ email)
    (hfresh : ∀ p ∈ st.members, p.1 ≠ st.nextMemberId) :
    (createMemberRoute st name email phone address none).2 =
      .ok st.nextMemberId ∧
    findById (createMemberRoute st name email phone address none).1.members
        st.nextMemberId =
      some { name := name, email := email, phone := phone, address := address,
             membership_status := MembershipStatus.active, max_books := 5 } := by
  have hany : st.members.any (fun p => p.2.email == email) = false := by
    rw [List.any_eq_false]
    intro p hp
    simp only [beq_iff_eq]
    exact hemail p hp
  have hres : createMemberRoute st name email phone address none =
      ({ st with
          members := st.members ++
            [(st.nextMemberId,
              { name := name, email := email, phone := phone,
                address := address,
                membership_status := MembershipStatus.active,
                max_books := jsNumOr none 5 })],
          nextMemberId := st.nextMemberId + 1 },
       .ok st.nextMemberId) := by
    unfold createMemberRoute
    rw [hany]
    rfl
  rw [hres]
  refine ⟨rfl, ?_⟩
  show findById (st.members ++ [(st.nextMemberId, _)]) st.nextMemberId = _
  rw [findById_append_fresh st.members st.nextMemberId _ hfresh]
  rfl

/-- Witness for C10: creating a member on the empty store with no
`max_books` yields a member whose cap is 5. -/
theorem create_member_default_cap_witness :
    (createMemberRoute emptyState "New" "new@example.com" none none none).2 =
      .ok emptyState.nextMemberId ∧
    findById (createMemberRoute emptyState "New" "new@example.com" none none
        none).1.members emptyState.nextMemberId =
      some { name := "New", email := "new@example.com", phone := none,
             address := none, membership_status := MembershipStatus.active,
             max_books := 5 } :=
  create_member_default_cap emptyState "New" "new@example.com" none none
    (fun p hp => absurd hp (List.not_mem_nil p))
    (fun p hp => absurd hp (List.not_mem_nil p))
